import Mathlib

/-!
Verification of the highlight pipeline of the game-spotlights repository:
a shallow embedding of the clustering, enrichment, clip-tracking, polling
and personalization code, together with theorems about the claims of the
specification. Confidences and scores are modelled as rationals, machine
timestamps as naturals, fallible collaborator calls as explicit outcome
parameters, and optional JavaScript object fields as `Option` values.
-/

namespace GameSpotlights

/-- A label detection event as returned by the detection collaborator:
mirrors the fields read from `labelResults.Labels` entries in
`analyzeResults` (`src/video-analysis/index.js`). -/
structure LabelDetection where
  name : String
  confidence : ℚ
  timestamp : Nat
deriving DecidableEq, Repr

/-- The allow-list of interesting label names from `analyzeResults`. -/
def interestingLabels : List String :=
  ["Ball", "Sports", "Goal", "Celebration", "Person", "Crowd"]

/-- The filter applied to label detections in `analyzeResults`:
name on the allow-list and confidence strictly above 85. -/
def qualifying (dets : List LabelDetection) : List LabelDetection :=
  dets.filter (fun d => decide (d.name ∈ interestingLabels) && decide ((85 : ℚ) < d.confidence))

/-- The bucket `labelTimestamps[t]` built by `analyzeResults`: qualifying
detections carrying timestamp `t`, in input order. -/
def labelsAt (dets : List LabelDetection) (t : Nat) : List LabelDetection :=
  (qualifying dets).filter (fun d => decide (d.timestamp = t))

/-- The sorted list of distinct qualifying timestamps, as produced by
`Object.keys(labelTimestamps).map(Number).sort((a, b) => a - b)`. -/
def sortedTimestamps (dets : List LabelDetection) : List Nat :=
  List.insertionSort (· ≤ ·) ((qualifying dets).map (fun d => d.timestamp)).dedup

/-- The mutable state of the clustering sweep in `analyzeResults`:
`currentCluster`, `lastTimestamp` and the accumulated highlight clusters. -/
structure ClusterState where
  current : List Nat
  last : Nat
  out : List (List Nat)
deriving DecidableEq, Repr

/-- One iteration of the timestamp sweep in `analyzeResults`: extend the
current cluster when it is empty or the gap is under 5000 ms, otherwise
emit it (when it has at least 3 members) and start a new one. -/
def clusterStep (s : ClusterState) (t : Nat) : ClusterState :=
  if s.current.length = 0 ∨ (t : Int) - (s.last : Int) < 5000 then
    { current := s.current ++ [t], last := t, out := s.out }
  else
    { current := [t], last := t,
      out := if 3 ≤ s.current.length then s.out ++ [s.current] else s.out }

/-- The post-loop step of `analyzeResults` that emits the final cluster
when it has at least 3 members. -/
def finalizeClusters (s : ClusterState) : List (List Nat) :=
  if 3 ≤ s.current.length then s.out ++ [s.current] else s.out

/-- The clusters of at least 3 timestamps produced by the sweep in
`analyzeResults` over a timestamp list. -/
def clusters (ts : List Nat) : List (List Nat) :=
  finalizeClusters (ts.foldl clusterStep { current := [], last := 0, out := [] })

/-- Recursive view of the sweep used for reasoning: grow the run while the
gap to the previous timestamp is under 5000 ms, break it otherwise. -/
def runsFrom (prev : Nat) (cur : List Nat) : List Nat → List (List Nat)
  | [] => [cur]
  | t :: ts =>
    if (t : Int) - (prev : Int) < 5000 then runsFrom t (cur ++ [t]) ts
    else cur :: runsFrom t [t] ts

/-- All maximal runs of a timestamp list under the code's boundary rule:
a new run begins exactly when the gap reaches 5000 ms or more. -/
def runs : List Nat → List (List Nat)
  | [] => []
  | t :: ts => runsFrom t [t] ts

/-- Grouping rule as the claim states it: the run is extended when the gap
is 5000 ms or less, and a new run begins only when the gap strictly
exceeds 5000 ms. Written from the claim's words, for comparison with the
source-derived `clusters`. -/
def runsFromClaim (prev : Nat) (cur : List Nat) : List Nat → List (List Nat)
  | [] => [cur]
  | t :: ts =>
    if (t : Int) - (prev : Int) ≤ 5000 then runsFromClaim t (cur ++ [t]) ts
    else cur :: runsFromClaim t [t] ts

/-- All maximal runs under the claim's stated boundary rule. -/
def runsClaim : List Nat → List (List Nat)
  | [] => []
  | t :: ts => runsFromClaim t [t] ts

example : clusters [0, 2000, 4000, 9000] = [[0, 2000, 4000]] := by decide

example :
    (runsClaim [0, 2000, 4000, 9000]).filter (fun c => decide (3 ≤ c.length)) =
      [[0, 2000, 4000, 9000]] := by decide

/-- Sentiment summary built by `analyzeTextWithComprehend`: the detected
sentiment label together with its score. -/
structure SentimentInfo where
  sentiment : String
  confidence : ℚ
deriving DecidableEq, Repr

/-- An entity extracted by the text-analytics collaborator. -/
structure EntityInfo where
  text : String
  type : String
  confidence : ℚ
deriving DecidableEq, Repr

/-- A key phrase extracted by the text-analytics collaborator. -/
structure PhraseInfo where
  text : String
  confidence : ℚ
deriving DecidableEq, Repr

/-- The gaming context summary built by `generateGamingContext`. -/
structure GamingContext where
  emotionalTone : String
  gameplayType : String
  audienceAppeal : String
deriving DecidableEq, Repr

/-- A highlight record as it flows through `analyzeResults`,
`enhanceWithBedrock` and `enhanceWithComprehend`. Fields that JavaScript
adds only in some code paths are `Option`s, `none` meaning the field is
absent from the object. -/
structure Highlight where
  startTime : ℚ := 0
  endTime : ℚ := 0
  duration : ℚ := 0
  confidence : ℚ := 0
  labels : List String := []
  personCount : Option Nat := none
  excitementLevel : Option ℚ := none
  playType : Option String := none
  aiTitle : Option String := none
  targetAudience : Option String := none
  aiEnhanced : Option Bool := none
  description : Option String := none
  titleSentiment : Option (Option SentimentInfo) := none
  titleEntities : Option (List EntityInfo) := none
  titleKeyPhrases : Option (List PhraseInfo) := none
  descriptionSentiment : Option (Option SentimentInfo) := none
  descriptionEntities : Option (List EntityInfo) := none
  gamingContext : Option GamingContext := none
  comprehendEnhanced : Option Bool := none
deriving DecidableEq, Repr

/-- Mean confidence over every detection of a cluster, 0 for an empty
cluster, as computed by `calculateClusterConfidence`. -/
def calculateClusterConfidence (cluster : List Nat) (la : Nat → List LabelDetection) : ℚ :=
  if 0 < ((cluster.map la).flatten).length then
    (((cluster.map la).flatten.map (fun d => d.confidence)).sum) /
      ((((cluster.map la).flatten).length : Nat) : ℚ)
  else 0

/-- Distinct label names of a cluster, as computed by `getUniqueLabels`. -/
def getUniqueLabels (cluster : List Nat) (la : Nat → List LabelDetection) : List String :=
  ((cluster.map la).flatten.map (fun d => d.name)).dedup

/-- The highlight candidate built from a closed cluster in
`analyzeResults`: first/last timestamp over 1000, duration, mean
confidence and the distinct labels. -/
def mkCandidate (cluster : List Nat) (la : Nat → List LabelDetection) : Highlight :=
  { startTime := (cluster.headD 0 : ℚ) / 1000
    endTime := (cluster.getLastD 0 : ℚ) / 1000
    duration := ((cluster.getLastD 0 : ℚ) - (cluster.headD 0 : ℚ)) / 1000
    confidence := calculateClusterConfidence cluster la
    labels := getUniqueLabels cluster la }

/-- The nested `Person` object of a person-tracking record; its `Index`
field may be absent. -/
structure PersonInfo where
  index : Option Nat
deriving DecidableEq, Repr

/-- A person-tracking record: a timestamp and an optional `Person`. -/
structure PersonDetection where
  timestamp : Nat
  person : Option PersonInfo
deriving DecidableEq, Repr

/-- The identifier added to the unique-person set by
`enhanceWithPersonData`: present only when the record has a `Person`
whose `Index` is present and truthy (nonzero). -/
def truthyIndex (p : PersonDetection) : Option Nat :=
  match p.person with
  | none => none
  | some q =>
    match q.index with
    | none => none
    | some i => if i = 0 then none else some i

/-- The tracking records whose timestamp falls inside a highlight's
window, as filtered by `enhanceWithPersonData`. -/
def personsInRange (h : Highlight) (persons : List PersonDetection) : List PersonDetection :=
  persons.filter (fun p =>
    decide (h.startTime * 1000 ≤ (p.timestamp : ℚ)) && decide ((p.timestamp : ℚ) ≤ h.endTime * 1000))

/-- The size of the unique-person set built by `enhanceWithPersonData`
for one highlight. -/
def personCountOf (persons : List PersonDetection) (h : Highlight) : Nat :=
  (((personsInRange h persons).filterMap truthyIndex).dedup).length

/-- The per-highlight body of `enhanceWithPersonData`: count distinct
truthy person indices in range and boost confidence by 1.2 when the
count exceeds 5. -/
def enhanceOneWithPersonData (persons : List PersonDetection) (h : Highlight) : Highlight :=
  if 5 < personCountOf persons h then
    { h with personCount := some (personCountOf persons h),
             confidence := h.confidence * (6 / 5) }
  else { h with personCount := some (personCountOf persons h) }

/-- The full `enhanceWithPersonData`: a no-op when there are no person
results, else the per-highlight enhancement mapped over the list. -/
def enhanceWithPersonData (highlights : List Highlight)
    (personResults : Option (List PersonDetection)) : List Highlight :=
  match personResults with
  | none => highlights
  | some persons => highlights.map (enhanceOneWithPersonData persons)

/-- Descending-confidence comparison used by the final sort in
`analyzeResults`. -/
def confDesc (a b : Highlight) : Prop := b.confidence ≤ a.confidence

instance : DecidableRel confDesc := fun a b =>
  inferInstanceAs (Decidable (b.confidence ≤ a.confidence))

instance : IsTotal Highlight confDesc := ⟨fun a b => le_total b.confidence a.confidence⟩

instance : IsTrans Highlight confDesc := ⟨fun _ _ _ hab hbc => le_trans hbc hab⟩

/-- The stable descending-confidence sort at the end of `analyzeResults`. -/
def sortByConfidenceDesc (hs : List Highlight) : List Highlight :=
  List.insertionSort confDesc hs

/-- The whole of `analyzeResults`: filter and bucket the interesting
detections, sweep the sorted distinct timestamps into clusters, build a
candidate per cluster of at least 3 timestamps, fold in person tracking,
and sort by confidence descending. -/
def analyzeResults (labelResults : Option (List LabelDetection))
    (personResults : Option (List PersonDetection)) : List Highlight :=
  sortByConfidenceDesc
    (enhanceWithPersonData
      ((clusters (sortedTimestamps (labelResults.getD []))).map
        (fun c => mkCandidate c (labelsAt (labelResults.getD []))))
      personResults)

/-- A per-highlight object of the contextual collaborator's parsed
response; every field may be absent. -/
structure AIInsight where
  excitementLevel : Option ℚ := none
  playType : Option String := none
  title : Option String := none
  targetAudience : Option String := none
deriving DecidableEq, Repr

/-- The observable behaviors of the contextual (Bedrock) call in
`enhanceWithBedrock`: the call or the JSON parse throws; the body parses
but carries no `content[0].text`; or a content text parses to an object
whose `highlights` array may be absent. -/
inductive BedrockOutcome where
  | failure
  | noContent
  | content (insights : Option (List AIInsight))
deriving DecidableEq, Repr

/-- JavaScript `v || fb` on an optional number: the fallback applies when
the field is absent or 0 (falsy). -/
def jsOrNum (v : Option ℚ) (fb : ℚ) : ℚ :=
  match v with
  | none => fb
  | some x => if x = 0 then fb else x

/-- JavaScript `v || fb` on an optional string: the fallback applies when
the field is absent or empty (falsy). -/
def jsOrStr (v : Option String) (fb : String) : String :=
  match v with
  | none => fb
  | some s => if s = "" then fb else s

/-- The per-highlight insight looked up positionally by
`enhanceWithBedrock`: `aiAnalysis.highlights?.[index] || {}`. -/
def aiAt (insights : Option (List AIInsight)) (i : Nat) : AIInsight :=
  (insights.bind (fun l => l.get? i)).getD {}

/-- The per-position merge of `enhanceWithBedrock`'s success path, with
`||` fallbacks per field and `aiEnhanced = true`. -/
def bedrockMergeOne (insights : Option (List AIInsight)) (i : Nat) (h : Highlight) : Highlight :=
  { h with
    excitementLevel := some (jsOrNum (aiAt insights i).excitementLevel (h.confidence / 10))
    playType := some (jsOrStr (aiAt insights i).playType "general")
    aiTitle := some (jsOrStr (aiAt insights i).title ("Highlight " ++ toString (i + 1)))
    targetAudience := some (jsOrStr (aiAt insights i).targetAudience "general")
    aiEnhanced := some true }

/-- The indexed map of `enhanceWithBedrock`'s success path over the
candidate list, starting at position `i`. -/
def bedrockMergeFrom (insights : Option (List AIInsight)) : Nat → List Highlight → List Highlight
  | _, [] => []
  | i, h :: rest => bedrockMergeOne insights i h :: bedrockMergeFrom insights (i + 1) rest

/-- The per-candidate fallback of `enhanceWithBedrock`'s catch path:
`aiEnhanced = false` and deterministic defaults; note that
`targetAudience` is not assigned on this path. -/
def bedrockFallbackOne (h : Highlight) : Highlight :=
  { h with
    aiEnhanced := some false
    excitementLevel := some (h.confidence / 10)
    playType := some "detected"
    aiTitle := some "Auto-detected Highlight" }

/-- The whole of `enhanceWithBedrock` as a function of the collaborator's
behavior: merge positionally on a parsed content text, return the input
list unchanged when the body has no content text, and map the fallback
on any thrown error. -/
def enhanceWithBedrock (highlights : List Highlight) (outcome : BedrockOutcome) : List Highlight :=
  match outcome with
  | BedrockOutcome.failure => highlights.map bedrockFallbackOne
  | BedrockOutcome.noContent => highlights
  | BedrockOutcome.content insights => bedrockMergeFrom insights 0 highlights

/-- A successful text-analytics (Comprehend) analysis of one text: the
three calls of `analyzeTextWithComprehend` all succeeded. -/
structure TextSuccess where
  sentiment : SentimentInfo
  entities : List EntityInfo
  keyPhrases : List PhraseInfo
deriving DecidableEq, Repr

/-- The analysis object returned by `analyzeTextWithComprehend`:
`sentiment` is null and the lists empty when any call failed. -/
structure TextAnalysis where
  sentiment : Option SentimentInfo
  entities : List EntityInfo
  keyPhrases : List PhraseInfo
deriving DecidableEq, Repr

/-- The whole of `analyzeTextWithComprehend` as a function of the
collaborator's per-text behavior: the catch inside it converts any
failure into the all-default analysis, so it never throws. -/
def analyzeTextWithComprehend (oracle : String → Option TextSuccess) (text : String) :
    TextAnalysis :=
  match oracle text with
  | some a => { sentiment := some a.sentiment, entities := a.entities, keyPhrases := a.keyPhrases }
  | none => { sentiment := none, entities := [], keyPhrases := [] }

/-- The emotional-tone branch of `generateGamingContext`: requires a
truthy `titleSentiment` with confidence above 0.7. -/
def emotionalToneOf (h : Highlight) : String :=
  match h.titleSentiment with
  | some (some s) =>
    if (7 / 10 : ℚ) < s.confidence then
      if s.sentiment = "POSITIVE" then "exciting"
      else if s.sentiment = "NEGATIVE" then "intense"
      else if s.sentiment = "NEUTRAL" then "balanced"
      else "neutral"
    else "neutral"
  | _ => "neutral"

/-- One entity step of the gameplay-type loop of `generateGamingContext`;
a later matching entity overwrites an earlier one. -/
def gameplayTypeStep (acc : String) (e : EntityInfo) : String :=
  let t := e.text.toLower
  if t.containsSubstr "goal" || t.containsSubstr "score" then "scoring"
  else if t.containsSubstr "save" || t.containsSubstr "defense" then "defensive"
  else if t.containsSubstr "skill" || t.containsSubstr "move" then "technical"
  else acc

/-- The gameplay-type branch of `generateGamingContext`. -/
def gameplayTypeOf (h : Highlight) : String :=
  match h.titleEntities with
  | some es => if 0 < es.length then es.foldl gameplayTypeStep "general" else "general"
  | none => "general"

/-- Appeal points contributed by one key phrase in
`generateGamingContext`. -/
def appealPoints (p : PhraseInfo) : Nat :=
  let t := p.text.toLower
  if t.containsSubstr "epic" || t.containsSubstr "amazing" || t.containsSubstr "incredible" then 2
  else if t.containsSubstr "great" || t.containsSubstr "good" || t.containsSubstr "nice" then 1
  else 0

/-- The audience-appeal branch of `generateGamingContext`: thresholds 3
and 1 on the additive appeal score. -/
def audienceAppealOf (h : Highlight) : String :=
  match h.titleKeyPhrases with
  | some ps =>
    if 0 < ps.length then
      if 3 ≤ (ps.map appealPoints).sum then "high"
      else if 1 ≤ (ps.map appealPoints).sum then "medium"
      else "broad"
    else "broad"
  | none => "broad"

/-- The whole of `generateGamingContext`. -/
def generateGamingContext (h : Highlight) : GamingContext :=
  { emotionalTone := emotionalToneOf h
    gameplayType := gameplayTypeOf h
    audienceAppeal := audienceAppealOf h }

/-- The title analysis of one candidate inside `enhanceWithComprehend`:
runs only when `aiTitle` is present and truthy (nonempty). -/
def comprehendTitleStage (oracle : String → Option TextSuccess) (h : Highlight) : Highlight :=
  match h.aiTitle with
  | none => h
  | some t =>
    if t = "" then h
    else
      { h with
        titleSentiment := some (analyzeTextWithComprehend oracle t).sentiment
        titleEntities := some (analyzeTextWithComprehend oracle t).entities
        titleKeyPhrases := some (analyzeTextWithComprehend oracle t).keyPhrases }

/-- The description analysis of one candidate inside
`enhanceWithComprehend`: runs only when `description` is present and
truthy (nonempty). -/
def comprehendDescriptionStage (oracle : String → Option TextSuccess) (h : Highlight) :
    Highlight :=
  match h.description with
  | none => h
  | some d =>
    if d = "" then h
    else
      { h with
        descriptionSentiment := some (analyzeTextWithComprehend oracle d).sentiment
        descriptionEntities := some (analyzeTextWithComprehend oracle d).entities }

/-- The per-candidate loop body of `enhanceWithComprehend`: title stage,
description stage, then gaming context and `comprehendEnhanced = true`. -/
def comprehendOne (oracle : String → Option TextSuccess) (h : Highlight) : Highlight :=
  { comprehendDescriptionStage oracle (comprehendTitleStage oracle h) with
    gamingContext :=
      some (generateGamingContext (comprehendDescriptionStage oracle (comprehendTitleStage oracle h)))
    comprehendEnhanced := some true }

/-- The whole of `enhanceWithComprehend` as a function of the per-text
collaborator behavior and of whether the surrounding stage throws: the
catch path maps the original highlights with `comprehendEnhanced =
false`, the normal path maps the per-candidate body. -/
def enhanceWithComprehend (oracle : String → Option TextSuccess) (stageFails : Bool)
    (highlights : List Highlight) : List Highlight :=
  if stageFails then highlights.map (fun h => { h with comprehendEnhanced := some false })
  else highlights.map (comprehendOne oracle)

/-- A user preference row read by `ruleBasedPersonalization`
(`src/personalization/index.js`); the weight field may be absent. -/
structure Preference where
  type : String
  value : String
  weight : Option ℚ
deriving DecidableEq, Repr

/-- The weight stored in the preference map: `pref.weight || 1`, so an
absent or zero weight becomes 1. -/
def storedWeight (w : Option ℚ) : ℚ :=
  match w with
  | none => 1
  | some x => if x = 0 then 1 else x

/-- Lookup in the preference map built by `ruleBasedPersonalization`: a
later preference row for the same type and value overwrites an earlier
one. -/
def prefLookup (prefs : List Preference) (ty v : String) : Option ℚ :=
  ((prefs.filter (fun p => decide (p.type = ty) && decide (p.value = v))).getLast?).map
    (fun p => storedWeight p.weight)

/-- A highlight record as read by the personalization engine; the fields
it consults may each be absent. -/
structure RankHighlight where
  confidence : Option ℚ := none
  teams : Option (List String) := none
  players : Option (List String) := none
  playType : Option String := none
  sport : Option String := none
  personalizedScore : Option ℚ := none
deriving DecidableEq, Repr

/-- Team points of `ruleBasedPersonalization`: 10 times the stored weight
for every team of the highlight found in the preference map. -/
def teamPoints (prefs : List Preference) (h : RankHighlight) : ℚ :=
  match h.teams with
  | none => 0
  | some ts =>
    (ts.map (fun t =>
      match prefLookup prefs "TEAM" t with
      | some w => 10 * w
      | none => 0)).sum

/-- Player points of `ruleBasedPersonalization`: 15 times the stored
weight for every player of the highlight found in the preference map. -/
def playerPoints (prefs : List Preference) (h : RankHighlight) : ℚ :=
  match h.players with
  | none => 0
  | some ps =>
    (ps.map (fun pl =>
      match prefLookup prefs "PLAYER" pl with
      | some w => 15 * w
      | none => 0)).sum

/-- Play-type points of `ruleBasedPersonalization`: 5 times the stored
weight when the highlight's truthy play type is in the preference map. -/
def playTypePoints (prefs : List Preference) (h : RankHighlight) : ℚ :=
  match h.playType with
  | none => 0
  | some pt =>
    if pt = "" then 0
    else
      match prefLookup prefs "PLAY_TYPE" pt with
      | some w => 5 * w
      | none => 0

/-- Sport points of `ruleBasedPersonalization`: 3 times the stored weight
when the highlight's truthy sport is in the preference map. -/
def sportPoints (prefs : List Preference) (h : RankHighlight) : ℚ :=
  match h.sport with
  | none => 0
  | some sp =>
    if sp = "" then 0
    else
      match prefLookup prefs "SPORT" sp with
      | some w => 3 * w
      | none => 0

/-- The per-highlight score of `ruleBasedPersonalization`: base
confidence (`|| 0`) plus the four weighted match contributions. -/
def ruleBasedScore (prefs : List Preference) (h : RankHighlight) : ℚ :=
  h.confidence.getD 0 + teamPoints prefs h + playerPoints prefs h +
    playTypePoints prefs h + sportPoints prefs h

/-- Descending comparison on `personalizedScore` used by the final sort
of `ruleBasedPersonalization`. -/
def scoreDesc (a b : RankHighlight) : Prop :=
  b.personalizedScore.getD 0 ≤ a.personalizedScore.getD 0

instance : DecidableRel scoreDesc := fun a b =>
  inferInstanceAs (Decidable (b.personalizedScore.getD 0 ≤ a.personalizedScore.getD 0))

instance : IsTotal RankHighlight scoreDesc :=
  ⟨fun a b => le_total (b.personalizedScore.getD 0) (a.personalizedScore.getD 0)⟩

instance : IsTrans RankHighlight scoreDesc := ⟨fun _ _ _ hab hbc => le_trans hbc hab⟩

/-- The whole of `ruleBasedPersonalization`: attach the score to every
highlight, then stable-sort descending by score. -/
def ruleBasedPersonalization (prefs : List Preference) (highlights : List RankHighlight) :
    List RankHighlight :=
  List.insertionSort scoreDesc
    (highlights.map (fun h => { h with personalizedScore := some (ruleBasedScore prefs h) }))

/-- A persisted highlight record as read by the clip processor
(`src/clip-processor/index.js`); `clipGenerated` distinguishes an absent
attribute from a stored `false`. -/
structure StoredHighlight where
  highlightId : String
  sourceVideo : String := ""
  clipGenerated : Option Bool := none
  clipUrl : Option String := none
  mediaConvertJobId : Option String := none
  clipStatus : Option String := none
deriving DecidableEq, Repr

/-- Store lookup of `getHighlightMetadata`, keyed by highlight id. -/
def getHighlightMetadata (store : List StoredHighlight) (id : String) : Option StoredHighlight :=
  store.find? (fun g => decide (g.highlightId = id))

/-- The result object returned by `processHighlight`. -/
structure ProcessResult where
  highlightId : String
  status : String
  clipUrl : Option String := none
  jobId : Option String := none
deriving DecidableEq, Repr

/-- The store update of `updateHighlightJobInfo`: record the transcoding
job id and set `clipStatus` to processing; `clipGenerated` is not
touched. -/
def updateHighlightJobInfo (store : List StoredHighlight) (id jobId : String) :
    List StoredHighlight :=
  store.map (fun g =>
    if g.highlightId = id then
      { g with mediaConvertJobId := some jobId, clipStatus := some "processing" }
    else g)

/-- The whole of `processHighlight`, with the job id the transcoding
collaborator would assign passed in: returns the result (or the error it
throws), the updated store, and how many transcoding jobs were created. -/
def processHighlight (store : List StoredHighlight) (newJobId : String) (id : String) :
    Except String ProcessResult × List StoredHighlight × Nat :=
  match getHighlightMetadata store id with
  | none => (Except.error ("Highlight " ++ id ++ " not found"), store, 0)
  | some h =>
    if h.clipGenerated.getD false then
      (Except.ok { highlightId := id, status := "already_processed", clipUrl := h.clipUrl },
        store, 0)
    else
      (Except.ok { highlightId := id, status := "job_created", jobId := some newJobId },
        updateHighlightJobInfo store id newJobId, 1)

/-- The scan filter of `processUnprocessedHighlights`:
`attribute_not_exists(clipGenerated) OR clipGenerated = false`. -/
def scanUnprocessed (store : List StoredHighlight) : List StoredHighlight :=
  store.filter (fun g => decide (g.clipGenerated = none ∨ g.clipGenerated = some false))

/-- The batch loop of `processUnprocessedHighlights`: process each
scanned id in turn, threading the store and counting created jobs; a
thrown error becomes an error entry for that id. -/
def processBatch (jobIds : Nat → String) :
    Nat → List StoredHighlight → List String →
      List (Except String ProcessResult) × List StoredHighlight × Nat
  | _, store, [] => ([], store, 0)
  | i, store, id :: rest =>
    let r := processHighlight store (jobIds i) id
    let rs := processBatch jobIds (i + 1) r.2.1 rest
    (r.1 :: rs.1, rs.2.1, r.2.2 + rs.2.2)

/-- The whole of `processUnprocessedHighlights`: scan for records without
a generated clip and process each of them. -/
def processUnprocessedHighlights (store : List StoredHighlight) (jobIds : Nat → String) :
    List (Except String ProcessResult) × List StoredHighlight × Nat :=
  processBatch jobIds 0 store ((scanUnprocessed store).map (fun g => g.highlightId))

/-- A poll response of the detection/tracking collaborator as read by
`waitForJobCompletion`: the status string and the rest of the payload. -/
structure JobResponse where
  jobStatus : String
  body : Nat
deriving DecidableEq, Repr

/-- The polling loop of `waitForJobCompletion`, with the responses of the
successive polls given as a sequence and the iterations bounded by
`fuel`: `none` means the loop was still running after `fuel` polls. The
second component of a successful result is the total accumulated delay
in milliseconds (5000 per non-terminal poll). -/
def waitAux (poll : Nat → JobResponse) : Nat → Nat → Nat → Option (Except String (JobResponse × Nat))
  | 0, _, _ => none
  | fuel + 1, i, delay =>
    if (poll i).jobStatus = "SUCCEEDED" then some (Except.ok (poll i, delay))
    else if (poll i).jobStatus = "FAILED" then some (Except.error "detection job failed")
    else waitAux poll fuel (i + 1) (delay + 5000)

/-- The whole of `waitForJobCompletion` under a fuel bound. -/
def waitForJobCompletion (poll : Nat → JobResponse) (fuel : Nat) :
    Option (Except String (JobResponse × Nat)) :=
  waitAux poll fuel 0 0

lemma foldl_clusterStep_eq :
    ∀ (rest cur : List Nat) (prev : Nat) (out : List (List Nat)), cur ≠ [] →
      finalizeClusters (rest.foldl clusterStep { current := cur, last := prev, out := out }) =
        out ++ (runsFrom prev cur rest).filter (fun c => decide (3 ≤ c.length)) := by
  intro rest
  induction rest with
  | nil =>
    intro cur prev out hne
    by_cases h3 : 3 ≤ cur.length <;>
      simp [finalizeClusters, runsFrom, List.filter, h3]
  | cons t ts ih =>
    intro cur prev out hne
    have hlen : ¬ cur.length = 0 := by
      simpa [List.length_eq_zero] using hne
    by_cases hgap : (t : Int) - (prev : Int) < 5000
    · have hstep : clusterStep { current := cur, last := prev, out := out } t =
          { current := cur ++ [t], last := t, out := out } := by
        simp [clusterStep, hgap]
      rw [List.foldl_cons, hstep, ih (cur ++ [t]) t out (by simp)]
      simp [runsFrom, hgap]
    · have hstep : clusterStep { current := cur, last := prev, out := out } t =
          { current := [t], last := t,
            out := if 3 ≤ cur.length then out ++ [cur] else out } := by
        rw [clusterStep, if_neg]
        simp [hlen, hgap]
      rw [List.foldl_cons, hstep, ih [t] t _ (by simp)]
      by_cases h3 : 3 ≤ cur.length <;>
        simp [runsFrom, hgap, List.filter_cons, h3, List.append_assoc]

lemma clusters_eq_runs (ts : List Nat) :
    clusters ts = (runs ts).filter (fun c => decide (3 ≤ c.length)) := by
  cases ts with
  | nil => rfl
  | cons t rest =>
    have hstep : clusterStep { current := [], last := 0, out := [] } t =
        { current := [t], last := t, out := [] } := by
      simp [clusterStep]
    unfold clusters
    rw [List.foldl_cons, hstep, foldl_clusterStep_eq rest [t] t [] (by simp)]
    simp [runs]

lemma mem_clusters {c : List Nat} {ts : List Nat} (h : c ∈ clusters ts) :
    c ∈ runs ts ∧ 3 ≤ c.length := by
  rw [clusters_eq_runs] at h
  refine ⟨List.mem_of_mem_filter h, ?_⟩
  simpa using List.of_mem_filter h

lemma runsFrom_sublist {c : List Nat} :
    ∀ (rest cur : List Nat) (prev : Nat), c ∈ runsFrom prev cur rest → List.Sublist c (cur ++ rest) := by
  intro rest
  induction rest with
  | nil =>
    intro cur prev hc
    simp only [runsFrom, List.mem_singleton] at hc
    subst hc
    simp
  | cons t ts ih =>
    intro cur prev hc
    simp only [runsFrom] at hc
    by_cases hgap : (t : Int) - (prev : Int) < 5000
    · rw [if_pos hgap] at hc
      have h1 := ih (cur ++ [t]) t hc
      simpa [List.append_assoc] using h1
    · rw [if_neg hgap] at hc
      rcases List.mem_cons.1 hc with h | h
      · subst h
        exact List.sublist_append_left c (t :: ts)
      · have h1 := ih [t] t h
        simp only [List.singleton_append] at h1
        exact h1.trans (List.sublist_append_right cur (t :: ts))

lemma mem_runs_sublist {c ts : List Nat} (hc : c ∈ runs ts) : List.Sublist c ts := by
  cases ts with
  | nil => simp [runs] at hc
  | cons t rest => simpa using runsFrom_sublist rest [t] t hc

/-- C2: for every sorted sequence of distinct detection timestamps, the
claim says a new cluster begins exactly when the gap exceeds 5000 ms and
a gap of exactly 5000 ms extends the cluster. On the sorted distinct
input `[0, 2000, 4000, 9000]`, whose last gap is exactly 5000 ms, the
code starts a new cluster at 9000 and emits only `[0, 2000, 4000]`,
while the claim's rule would keep all four timestamps in one cluster. -/
theorem clusters_gap_eq_5000_refutes_claim :
    clusters [0, 2000, 4000, 9000] ≠
        (runsClaim [0, 2000, 4000, 9000]).filter (fun c => decide (3 ≤ c.length)) ∧
      clusters [0, 2000, 4000, 9000] = [[0, 2000, 4000]] ∧
      (runsClaim [0, 2000, 4000, 9000]).filter (fun c => decide (3 ≤ c.length)) =
        [[0, 2000, 4000, 9000]] := by
  refine ⟨?_, ?_, ?_⟩ <;> decide

lemma sortedTimestamps_sorted (dets : List LabelDetection) :
    List.Sorted (· ≤ ·) (sortedTimestamps dets) :=
  List.sorted_insertionSort _ _

lemma sortedTimestamps_nodup (dets : List LabelDetection) :
    (sortedTimestamps dets).Nodup :=
  (List.perm_insertionSort _ _).nodup_iff.2 (List.nodup_dedup _)

lemma labelsAt_ne_nil {dets : List LabelDetection} {t : Nat}
    (ht : t ∈ sortedTimestamps dets) : labelsAt dets t ≠ [] := by
  unfold sortedTimestamps at ht
  rw [List.mem_insertionSort, List.mem_dedup] at ht
  rcases List.mem_map.1 ht with ⟨d, hd, rfl⟩
  intro hnil
  have hmem : d ∈ labelsAt dets d.timestamp := by
    unfold labelsAt
    rw [List.mem_filter]
    exact ⟨hd, by simp⟩
  rw [hnil] at hmem
  exact (List.not_mem_nil d) hmem

lemma sorted_headD_le_getLastD :
    ∀ (c : List Nat), List.Sorted (· ≤ ·) c → c ≠ [] → c.headD 0 ≤ c.getLastD 0 := by
  intro c
  induction c with
  | nil => simp
  | cons a l ih =>
    intro hs _
    cases l with
    | nil => simp
    | cons b m =>
      have h1 : a ≤ b := (List.sorted_cons.1 hs).1 b (by simp)
      have h2 := ih (List.sorted_cons.1 hs).2 (by simp)
      have h3 : (a :: b :: m).getLastD 0 = (b :: m).getLastD 0 := by
        simp [List.getLastD]
      simp only [List.headD] at h2 ⊢
      rw [h3]
      exact le_trans h1 h2

lemma mem_analyzeResults {lr : Option (List LabelDetection)}
    {pr : Option (List PersonDetection)} {h : Highlight}
    (hmem : h ∈ analyzeResults lr pr) :
    ∃ c ∈ clusters (sortedTimestamps (lr.getD [])),
      (pr = none ∧ h = mkCandidate c (labelsAt (lr.getD []))) ∨
        (∃ ps, pr = some ps ∧
          h = enhanceOneWithPersonData ps (mkCandidate c (labelsAt (lr.getD [])))) := by
  unfold analyzeResults at hmem
  rw [sortByConfidenceDesc, List.mem_insertionSort] at hmem
  cases pr with
  | none =>
    simp only [enhanceWithPersonData] at hmem
    rcases List.mem_map.1 hmem with ⟨c, hc, rfl⟩
    exact ⟨c, hc, Or.inl ⟨rfl, rfl⟩⟩
  | some ps =>
    simp only [enhanceWithPersonData] at hmem
    rw [List.mem_map] at hmem
    rcases hmem with ⟨h0, h0mem, rfl⟩
    rcases List.mem_map.1 h0mem with ⟨c, hc, rfl⟩
    exact ⟨c, hc, Or.inr ⟨ps, rfl, rfl⟩⟩

lemma enhanceOneWithPersonData_fields (ps : List PersonDetection) (h : Highlight) :
    ∃ pc : Nat, (enhanceOneWithPersonData ps h).personCount = some pc ∧
      (enhanceOneWithPersonData ps h).confidence =
        (if 5 < pc then h.confidence * (6 / 5) else h.confidence) ∧
      (enhanceOneWithPersonData ps h).startTime = h.startTime ∧
      (enhanceOneWithPersonData ps h).endTime = h.endTime := by
  refine ⟨personCountOf ps h, ?_, ?_, ?_, ?_⟩ <;>
    (unfold enhanceOneWithPersonData
     by_cases h5 : 5 < personCountOf ps h <;> simp [h5])

lemma mem_clusters_shape {dets : List LabelDetection} {c : List Nat}
    (hc : c ∈ clusters (sortedTimestamps dets)) :
    3 ≤ c.length ∧ c.Nodup ∧ List.Sorted (· ≤ ·) c ∧ c ≠ [] := by
  rcases mem_clusters hc with ⟨hruns, hlen⟩
  have hsub := mem_runs_sublist hruns
  have hne : c ≠ [] := by
    intro hnil
    rw [hnil] at hlen
    simp at hlen
  exact ⟨hlen, (sortedTimestamps_nodup dets).sublist hsub,
    (sortedTimestamps_sorted dets).sublist hsub, hne⟩

lemma clusters_flatten_pos {dets : List LabelDetection} {c : List Nat}
    (hc : c ∈ clusters (sortedTimestamps dets)) :
    0 < ((c.map (labelsAt dets)).flatten).length := by
  rcases mem_clusters_shape hc with ⟨_, _, _, hne⟩
  rcases List.exists_mem_of_ne_nil c hne with ⟨t, ht⟩
  have htts : t ∈ sortedTimestamps dets :=
    (mem_runs_sublist (mem_clusters hc).1).subset ht
  rcases List.exists_mem_of_ne_nil _ (labelsAt_ne_nil htts) with ⟨d, hd⟩
  have : d ∈ (c.map (labelsAt dets)).flatten :=
    List.mem_flatten.2 ⟨labelsAt dets t, List.mem_map_of_mem _ ht, hd⟩
  exact List.length_pos_of_mem this

lemma mkCandidate_start_le_end {dets : List LabelDetection} {c : List Nat}
    (hc : c ∈ clusters (sortedTimestamps dets)) :
    (mkCandidate c (labelsAt dets)).startTime ≤ (mkCandidate c (labelsAt dets)).endTime := by
  rcases mem_clusters_shape hc with ⟨_, _, hsorted, hne⟩
  have h1 : c.headD 0 ≤ c.getLastD 0 := sorted_headD_le_getLastD c hsorted hne
  have h2 : ((c.headD 0 : Nat) : ℚ) ≤ ((c.getLastD 0 : Nat) : ℚ) := by
    exact_mod_cast h1
  exact (div_le_div_iff_of_pos_right (by norm_num : (0 : ℚ) < 1000)).2 h2

/-- C3: every candidate emitted by `analyzeResults` is built from a
cluster of at least 3 distinct timestamps (its start and end times come
from that cluster's first and last timestamps), and an input with no
qualifying detections yields the empty output rather than an error. -/
theorem analyzeResults_min_three_distinct_timestamps :
    (∀ (lr : Option (List LabelDetection)) (pr : Option (List PersonDetection))
        (h : Highlight), h ∈ analyzeResults lr pr →
      ∃ c, c ∈ clusters (sortedTimestamps (lr.getD [])) ∧ 3 ≤ c.length ∧ c.Nodup ∧
        h.startTime = (c.headD 0 : ℚ) / 1000 ∧ h.endTime = (c.getLastD 0 : ℚ) / 1000) ∧
    (∀ (lr : Option (List LabelDetection)) (pr : Option (List PersonDetection)),
      qualifying (lr.getD []) = [] → analyzeResults lr pr = []) := by
  constructor
  · intro lr pr h hmem
    rcases mem_analyzeResults hmem with ⟨c, hc, hcase⟩
    rcases mem_clusters_shape hc with ⟨hlen, hnodup, _, _⟩
    refine ⟨c, hc, hlen, hnodup, ?_⟩
    rcases hcase with ⟨_, rfl⟩ | ⟨ps, _, rfl⟩
    · exact ⟨rfl, rfl⟩
    · rcases enhanceOneWithPersonData_fields ps (mkCandidate c (labelsAt (lr.getD []))) with
        ⟨pc, _, _, hst, hen⟩
      rw [hst, hen]
      exact ⟨rfl, rfl⟩
  · intro lr pr hq
    have hts : sortedTimestamps (lr.getD []) = [] := by
      unfold sortedTimestamps
      rw [hq]
      rfl
    unfold analyzeResults
    rw [hts]
    cases pr <;>
      simp [clusters, finalizeClusters, enhanceWithPersonData, sortByConfidenceDesc,
        List.insertionSort]

/-- C4: every candidate emitted by `analyzeResults` has `startTime ≤
endTime`, and its confidence is the arithmetic mean of the confidences of
all constituent detections of its cluster, multiplied by exactly 1.2 when
the person count exceeds 5 and left unchanged otherwise, with no upper
clamp. -/
theorem analyzeResults_confidence_is_boosted_mean :
    ∀ (lr : Option (List LabelDetection)) (pr : Option (List PersonDetection)) (h : Highlight),
      h ∈ analyzeResults lr pr →
      h.startTime ≤ h.endTime ∧
      ∃ c, c ∈ clusters (sortedTimestamps (lr.getD [])) ∧
        0 < ((c.map (labelsAt (lr.getD []))).flatten).length ∧
        calculateClusterConfidence c (labelsAt (lr.getD [])) =
          (((c.map (labelsAt (lr.getD []))).flatten.map (fun d => d.confidence)).sum) /
            (((c.map (labelsAt (lr.getD []))).flatten).length : ℚ) ∧
        ((h.personCount = none ∧
            h.confidence = calculateClusterConfidence c (labelsAt (lr.getD []))) ∨
          (∃ pc, h.personCount = some pc ∧
            h.confidence =
              (if 5 < pc then calculateClusterConfidence c (labelsAt (lr.getD [])) * (6 / 5)
                else calculateClusterConfidence c (labelsAt (lr.getD []))))) := by
  intro lr pr h hmem
  rcases mem_analyzeResults hmem with ⟨c, hc, hcase⟩
  have hpos := clusters_flatten_pos hc
  have hmean : calculateClusterConfidence c (labelsAt (lr.getD [])) =
      (((c.map (labelsAt (lr.getD []))).flatten.map (fun d => d.confidence)).sum) /
        (((c.map (labelsAt (lr.getD []))).flatten).length : ℚ) := by
    unfold calculateClusterConfidence
    rw [if_pos hpos]
  rcases hcase with ⟨_, rfl⟩ | ⟨ps, _, rfl⟩
  · exact ⟨mkCandidate_start_le_end hc, c, hc, hpos, hmean, Or.inl ⟨rfl, rfl⟩⟩
  · rcases enhanceOneWithPersonData_fields ps (mkCandidate c (labelsAt (lr.getD []))) with
      ⟨pc, hpc, hconf, hst, hen⟩
    refine ⟨?_, c, hc, hpos, hmean, Or.inr ⟨pc, hpc, ?_⟩⟩
    · rw [hst, hen]
      exact mkCandidate_start_le_end hc
    · rw [hconf]
      rfl

/-- Concrete detection input used to instantiate the clustering
theorems: the three-event scenario of the specification. -/
def detsW : List LabelDetection :=
  [{ name := "Ball", confidence := 90, timestamp := 0 },
   { name := "Goal", confidence := 92, timestamp := 1000 },
   { name := "Celebration", confidence := 95, timestamp := 2000 }]

/-- Concrete label-results argument built from `detsW`. -/
def lrW : Option (List LabelDetection) := some detsW

lemma qualifying_detsW : qualifying detsW = detsW := by
  norm_num [qualifying, detsW, interestingLabels, List.filter]

lemma sortedTimestamps_detsW : sortedTimestamps detsW = [0, 1000, 2000] := by
  unfold sortedTimestamps
  rw [qualifying_detsW]
  decide

lemma labelsAt_detsW_0 :
    labelsAt detsW 0 = [{ name := "Ball", confidence := 90, timestamp := 0 }] := by
  rw [labelsAt, qualifying_detsW]
  simp [detsW, List.filter]

lemma labelsAt_detsW_1000 :
    labelsAt detsW 1000 = [{ name := "Goal", confidence := 92, timestamp := 1000 }] := by
  rw [labelsAt, qualifying_detsW]
  simp [detsW, List.filter]

lemma labelsAt_detsW_2000 :
    labelsAt detsW 2000 = [{ name := "Celebration", confidence := 95, timestamp := 2000 }] := by
  rw [labelsAt, qualifying_detsW]
  simp [detsW, List.filter]

/-- The highlight that `analyzeResults` produces on the `detsW` input. -/
def hW : Highlight :=
  { startTime := 0, endTime := 2, duration := 2, confidence := 277 / 3,
    labels := ["Ball", "Goal", "Celebration"] }

lemma analyzeResults_lrW : analyzeResults lrW none = [hW] := by
  unfold analyzeResults
  rw [show (lrW.getD [] : List LabelDetection) = detsW from rfl]
  rw [sortedTimestamps_detsW]
  rw [show clusters [0, 1000, 2000] = [[0, 1000, 2000]] from by decide]
  simp only [List.map, enhanceWithPersonData]
  rw [sortByConfidenceDesc]
  simp only [List.insertionSort, List.orderedInsert]
  rw [mkCandidate]
  unfold calculateClusterConfidence getUniqueLabels
  simp only [List.map, List.flatten, labelsAt_detsW_0, labelsAt_detsW_1000, labelsAt_detsW_2000]
  norm_num [hW, List.dedup]
  decide

lemma hW_mem : hW ∈ analyzeResults lrW none := by
  rw [analyzeResults_lrW]
  simp

/-- Witness for C3: the three-event scenario input produces a highlight
and the cluster-size facts hold for it. -/
theorem analyzeResults_min_three_distinct_timestamps_witness :
    hW ∈ analyzeResults lrW none ∧
      ∃ c, c ∈ clusters (sortedTimestamps (lrW.getD [])) ∧ 3 ≤ c.length ∧ c.Nodup ∧
        hW.startTime = (c.headD 0 : ℚ) / 1000 ∧ hW.endTime = (c.getLastD 0 : ℚ) / 1000 :=
  ⟨hW_mem, analyzeResults_min_three_distinct_timestamps.1 lrW none hW hW_mem⟩

/-- Witness for C4: the three-event scenario input produces a highlight
and the confidence-aggregate facts hold for it. -/
theorem analyzeResults_confidence_is_boosted_mean_witness :
    hW ∈ analyzeResults lrW none ∧
      (hW.startTime ≤ hW.endTime ∧
        ∃ c, c ∈ clusters (sortedTimestamps (lrW.getD [])) ∧
          0 < ((c.map (labelsAt (lrW.getD []))).flatten).length ∧
          calculateClusterConfidence c (labelsAt (lrW.getD [])) =
            (((c.map (labelsAt (lrW.getD []))).flatten.map (fun d => d.confidence)).sum) /
              (((c.map (labelsAt (lrW.getD []))).flatten).length : ℚ) ∧
          ((hW.personCount = none ∧
              hW.confidence = calculateClusterConfidence c (labelsAt (lrW.getD []))) ∨
            (∃ pc, hW.personCount = some pc ∧
              hW.confidence =
                (if 5 < pc then calculateClusterConfidence c (labelsAt (lrW.getD [])) * (6 / 5)
                  else calculateClusterConfidence c (labelsAt (lrW.getD [])))))) :=
  ⟨hW_mem, analyzeResults_confidence_is_boosted_mean lrW none hW hW_mem⟩

/-- C2 (amended): the clustering sweep begins a new cluster exactly when
the gap from the previous timestamp is 5000 ms or more, and a gap
strictly below 5000 ms extends the current cluster; clusters of fewer
than 3 timestamps are then discarded. Stated as: the sweep equals the
run grouping whose boundary rule is `gap ≥ 5000 ms`, filtered to runs of
at least 3 timestamps. -/
theorem clusters_break_iff_gap_ge_5000 (ts : List Nat) :
    clusters ts = (runs ts).filter (fun c => decide (3 ≤ c.length)) :=
  clusters_eq_runs ts

lemma truthyIndex_eq_none_of_zero_or_absent {p : PersonDetection}
    (hp : ∀ q, p.person = some q → (q.index = none ∨ q.index = some 0)) :
    truthyIndex p = none := by
  unfold truthyIndex
  cases hperson : p.person with
  | none => rfl
  | some q =>
    rcases hp q hperson with hi | hi <;> simp [hi]

/-- C10: a tracked person whose `Index` is 0 or absent is never added to
the distinct-person set: if every in-range tracking record of a
highlight carries index 0 or no index, the person count is 0 and the
confidence is left unboosted; and whenever the fold changes a
highlight's confidence, some in-range record carries a nonzero index. -/
theorem personData_zero_index_never_counted :
    ∀ (persons : List PersonDetection) (h : Highlight),
      ((∀ p ∈ personsInRange h persons, ∀ q, p.person = some q →
          (q.index = none ∨ q.index = some 0)) →
        enhanceOneWithPersonData persons h = { h with personCount := some 0 }) ∧
      ((enhanceOneWithPersonData persons h).confidence ≠ h.confidence →
        ∃ p ∈ personsInRange h persons, ∃ q i, p.person = some q ∧ q.index = some i ∧ i ≠ 0) := by
  intro persons h
  constructor
  · intro hall
    have hnil : (personsInRange h persons).filterMap truthyIndex = [] := by
      rw [List.filterMap_eq_nil_iff]
      intro p hp
      exact truthyIndex_eq_none_of_zero_or_absent (hall p hp)
    have hpc : personCountOf persons h = 0 := by
      unfold personCountOf
      rw [hnil]
      rfl
    unfold enhanceOneWithPersonData
    rw [hpc]
    simp
  · intro hne
    unfold enhanceOneWithPersonData at hne
    by_cases h5 : 5 < personCountOf persons h
    · have hpos : 0 < personCountOf persons h := by omega
      unfold personCountOf at hpos
      have hne2 : ((personsInRange h persons).filterMap truthyIndex).dedup ≠ [] := by
        intro hnil
        rw [hnil] at hpos
        simp at hpos
      rcases List.exists_mem_of_ne_nil _ hne2 with ⟨i, hi⟩
      rw [List.mem_dedup] at hi
      rcases List.mem_filterMap.1 hi with ⟨p, hp, hti⟩
      refine ⟨p, hp, ?_⟩
      unfold truthyIndex at hti
      cases hperson : p.person with
      | none => simp [hperson] at hti
      | some q =>
        simp only [hperson] at hti
        cases hindex : q.index with
        | none => simp [hindex] at hti
        | some j =>
          simp only [hindex] at hti
          by_cases hj : j = 0
          · simp [hj] at hti
          · exact ⟨q, j, rfl, hindex, hj⟩
    · rw [if_neg h5] at hne
      simp at hne

/-- Concrete tracking records whose in-range entries all carry index 0 or
no index. -/
def personsW : List PersonDetection :=
  [{ timestamp := 1000, person := some { index := some 0 } },
   { timestamp := 2000, person := none },
   { timestamp := 2500, person := some { index := none } }]

/-- Concrete highlight window covering all of `personsW`. -/
def hpW : Highlight := { startTime := 0, endTime := 3 }

lemma personsInRange_hpW : personsInRange hpW personsW = personsW := by
  norm_num [personsInRange, hpW, personsW, List.filter]

/-- Witness for C10: on records with only zero or absent indices, the
fold yields person count 0 and an unchanged confidence. -/
theorem personData_zero_index_never_counted_witness :
    enhanceOneWithPersonData personsW hpW = { hpW with personCount := some 0 } :=
  (personData_zero_index_never_counted personsW hpW).1 (by
    intro p hp q hq
    rw [personsInRange_hpW] at hp
    have hcases : p = { timestamp := 1000, person := some { index := some 0 } } ∨
        p = { timestamp := 2000, person := none } ∨
        p = { timestamp := 2500, person := some { index := none } } := by
      simpa [personsW] using hp
    rcases hcases with rfl | rfl | rfl <;>
      first
        | (simp at hq
           subst hq
           simp)
        | simp at hq)

lemma waitAux_first_succeeded :
    ∀ (poll : Nat → JobResponse) (k fuel i delay : Nat),
      (∀ m, m < k → (poll (i + m)).jobStatus ≠ "SUCCEEDED" ∧
        (poll (i + m)).jobStatus ≠ "FAILED") →
      (poll (i + k)).jobStatus = "SUCCEEDED" → k < fuel →
      waitAux poll fuel i delay = some (Except.ok (poll (i + k), delay + 5000 * k)) := by
  intro poll k
  induction k with
  | zero =>
    intro fuel i delay _ hsucc hlt
    cases fuel with
    | zero => omega
    | succ f =>
      unfold waitAux
      simp only [Nat.add_zero] at hsucc
      simp [hsucc]
  | succ k ih =>
    intro fuel i delay hnon hsucc hlt
    cases fuel with
    | zero => omega
    | succ f =>
      have h0 := hnon 0 (Nat.succ_pos k)
      simp only [Nat.add_zero] at h0
      unfold waitAux
      rw [if_neg h0.1, if_neg h0.2]
      have h1 : ∀ m, m < k → (poll (i + 1 + m)).jobStatus ≠ "SUCCEEDED" ∧
          (poll (i + 1 + m)).jobStatus ≠ "FAILED" := by
        intro m hm
        have := hnon (m + 1) (by omega)
        have harith : i + (m + 1) = i + 1 + m := by omega
        rwa [harith] at this
      have h2 : (poll (i + 1 + k)).jobStatus = "SUCCEEDED" := by
        have harith : i + (k + 1) = i + 1 + k := by omega
        rwa [harith] at hsucc
      rw [ih f (i + 1) (delay + 5000) h1 h2 (by omega)]
      have harith : i + 1 + k = i + (k + 1) := by omega
      have harith2 : delay + 5000 + 5000 * k = delay + 5000 * (k + 1) := by ring
      rw [harith, harith2]

lemma waitAux_first_failed :
    ∀ (poll : Nat → JobResponse) (k fuel i delay : Nat),
      (∀ m, m < k → (poll (i + m)).jobStatus ≠ "SUCCEEDED" ∧
        (poll (i + m)).jobStatus ≠ "FAILED") →
      (poll (i + k)).jobStatus = "FAILED" → k < fuel →
      waitAux poll fuel i delay = some (Except.error "detection job failed") := by
  intro poll k
  induction k with
  | zero =>
    intro fuel i delay _ hfail hlt
    cases fuel with
    | zero => omega
    | succ f =>
      unfold waitAux
      simp only [Nat.add_zero] at hfail
      have hns : (poll i).jobStatus ≠ "SUCCEEDED" := by
        rw [hfail]
        decide
      rw [if_neg hns, if_pos hfail]
  | succ k ih =>
    intro fuel i delay hnon hfail hlt
    cases fuel with
    | zero => omega
    | succ f =>
      have h0 := hnon 0 (Nat.succ_pos k)
      simp only [Nat.add_zero] at h0
      unfold waitAux
      rw [if_neg h0.1, if_neg h0.2]
      have h1 : ∀ m, m < k → (poll (i + 1 + m)).jobStatus ≠ "SUCCEEDED" ∧
          (poll (i + 1 + m)).jobStatus ≠ "FAILED" := by
        intro m hm
        have := hnon (m + 1) (by omega)
        have harith : i + (m + 1) = i + 1 + m := by omega
        rwa [harith] at this
      have h2 : (poll (i + 1 + k)).jobStatus = "FAILED" := by
        have harith : i + (k + 1) = i + 1 + k := by omega
        rwa [harith] at hfail
      exact ih f (i + 1) (delay + 5000) h1 h2 (by omega)

lemma waitAux_no_terminal :
    ∀ (poll : Nat → JobResponse) (fuel i delay : Nat),
      (∀ m, (poll m).jobStatus ≠ "SUCCEEDED" ∧ (poll m).jobStatus ≠ "FAILED") →
      waitAux poll fuel i delay = none := by
  intro poll fuel
  induction fuel with
  | zero => intro i delay _; rfl
  | succ f ih =>
    intro i delay hnon
    unfold waitAux
    rw [if_neg (hnon i).1, if_neg (hnon i).2]
    exact ih (i + 1) (delay + 5000) hnon

/-- C9: the poller returns the poll result exactly when a poll reports
SUCCEEDED, raises an error exactly when a poll reports FAILED, and
otherwise keeps polling after a fixed 5000 ms delay per attempt with no
bound: when the first terminal poll is a success at index `n`, the loop
returns that response after `5000·n` ms of accumulated delay; when it is
a failure, the loop throws; and when no poll is ever terminal, the loop
is still running after every fuel bound. -/
theorem waitForJobCompletion_terminal_behavior :
    ∀ (poll : Nat → JobResponse) (n fuel : Nat),
      ((∀ m, m < n → (poll m).jobStatus ≠ "SUCCEEDED" ∧ (poll m).jobStatus ≠ "FAILED") →
        (poll n).jobStatus = "SUCCEEDED" → n < fuel →
        waitForJobCompletion poll fuel = some (Except.ok (poll n, 5000 * n))) ∧
      ((∀ m, m < n → (poll m).jobStatus ≠ "SUCCEEDED" ∧ (poll m).jobStatus ≠ "FAILED") →
        (poll n).jobStatus = "FAILED" → n < fuel →
        waitForJobCompletion poll fuel = some (Except.error "detection job failed")) ∧
      ((∀ m, (poll m).jobStatus ≠ "SUCCEEDED" ∧ (poll m).jobStatus ≠ "FAILED") →
        waitForJobCompletion poll fuel = none) := by
  intro poll n fuel
  refine ⟨?_, ?_, ?_⟩
  · intro hnon hsucc hlt
    unfold waitForJobCompletion
    have := waitAux_first_succeeded poll n fuel 0 0 (by simpa using hnon) (by simpa using hsucc)
      hlt
    simpa using this
  · intro hnon hfail hlt
    unfold waitForJobCompletion
    exact waitAux_first_failed poll n fuel 0 0 (by simpa using hnon) (by simpa using hfail) hlt
  · intro hnon
    exact waitAux_no_terminal poll fuel 0 0 hnon

/-- Concrete poll sequence succeeding on the third poll. -/
def pollSuccW : Nat → JobResponse := fun n =>
  if n = 2 then { jobStatus := "SUCCEEDED", body := 7 }
  else { jobStatus := "IN_PROGRESS", body := 0 }

/-- Concrete poll sequence failing on the second poll. -/
def pollFailW : Nat → JobResponse := fun n =>
  if n = 1 then { jobStatus := "FAILED", body := 0 }
  else { jobStatus := "IN_PROGRESS", body := 0 }

/-- Concrete poll sequence that never reaches a terminal state. -/
def pollRunW : Nat → JobResponse := fun _ => { jobStatus := "IN_PROGRESS", body := 0 }

/-- Witness for C9: the three poll behaviors instantiated. -/
theorem waitForJobCompletion_terminal_behavior_witness :
    waitForJobCompletion pollSuccW 5 = some (Except.ok (pollSuccW 2, 5000 * 2)) ∧
      waitForJobCompletion pollFailW 5 = some (Except.error "detection job failed") ∧
      waitForJobCompletion pollRunW 17 = none :=
  ⟨(waitForJobCompletion_terminal_behavior pollSuccW 2 5).1 (by decide) (by decide) (by decide),
   (waitForJobCompletion_terminal_behavior pollFailW 1 5).2.1 (by decide) (by decide) (by decide),
   (waitForJobCompletion_terminal_behavior pollRunW 0 17).2.2
     (by intro m; constructor <;> simp [pollRunW])⟩

/-- C8: the clip job tracker is idempotent on generated clips: a
highlight whose record carries `clipGenerated = true` yields an
already-processed status with no transcoding job and no store update, so
submitting it twice creates zero jobs in total; and the batch re-scan
never targets a record carrying `clipGenerated = true`. -/
theorem processHighlight_generated_is_noop :
    ∀ (store : List StoredHighlight) (jid jid2 id : String) (g : StoredHighlight),
      ((getHighlightMetadata store id = some g ∧ g.clipGenerated = some true) →
        processHighlight store jid id =
          (Except.ok { highlightId := id, status := "already_processed", clipUrl := g.clipUrl },
            store, 0) ∧
        (processHighlight (processHighlight store jid id).2.1 jid2 id).2.2 +
            (processHighlight store jid id).2.2 = 0) ∧
      (∀ g2 ∈ store, g2.clipGenerated = some true → g2 ∉ scanUnprocessed store) := by
  intro store jid jid2 id g
  constructor
  · rintro ⟨hfind, hgen⟩
    have hone : processHighlight store jid id =
        (Except.ok { highlightId := id, status := "already_processed", clipUrl := g.clipUrl },
          store, 0) := by
      unfold processHighlight
      rw [hfind]
      simp [hgen]
    refine ⟨hone, ?_⟩
    rw [hone]
    simp only []
    have htwo : processHighlight store jid2 id =
        (Except.ok { highlightId := id, status := "already_processed", clipUrl := g.clipUrl },
          store, 0) := by
      unfold processHighlight
      rw [hfind]
      simp [hgen]
    rw [htwo]
  · intro g2 hg2 hgen hmem
    have := List.of_mem_filter hmem
    rw [decide_eq_true_eq] at this
    rcases this with h | h <;> rw [hgen] at h <;> simp at h

/-- Concrete store holding one highlight with a generated clip and one
without. -/
def storeW : List StoredHighlight :=
  [{ highlightId := "h1", clipGenerated := some true, clipUrl := some "clips/h1.mp4" },
   { highlightId := "h2", clipGenerated := some false }]

/-- Witness for C8: processing the already-generated highlight twice
creates no job and leaves the store unchanged, and the re-scan excludes
it. -/
theorem processHighlight_generated_is_noop_witness :
    (processHighlight storeW "job-a" "h1" =
      (Except.ok
          { highlightId := "h1", status := "already_processed",
            clipUrl := some "clips/h1.mp4" },
        storeW, 0) ∧
      (processHighlight (processHighlight storeW "job-a" "h1").2.1 "job-b" "h1").2.2 +
          (processHighlight storeW "job-a" "h1").2.2 = 0) ∧
      ({ highlightId := "h1", clipGenerated := some true,
         clipUrl := some "clips/h1.mp4" } : StoredHighlight) ∉ scanUnprocessed storeW :=
  ⟨(processHighlight_generated_is_noop storeW "job-a" "job-b" "h1"
      { highlightId := "h1", clipGenerated := some true, clipUrl := some "clips/h1.mp4" }).1
      ⟨by decide, by decide⟩,
    (processHighlight_generated_is_noop storeW "job-a" "job-b" "h1"
      { highlightId := "h1", clipGenerated := some true, clipUrl := some "clips/h1.mp4" }).2
      { highlightId := "h1", clipGenerated := some true, clipUrl := some "clips/h1.mp4" }
      (by decide) (by decide)⟩

lemma comprehendTitleStage_preserves (oracle : String → Option TextSuccess) (h : Highlight) :
    (comprehendTitleStage oracle h).excitementLevel = h.excitementLevel ∧
      (comprehendTitleStage oracle h).playType = h.playType ∧
      (comprehendTitleStage oracle h).aiTitle = h.aiTitle ∧
      (comprehendTitleStage oracle h).targetAudience = h.targetAudience ∧
      (comprehendTitleStage oracle h).description = h.description := by
  unfold comprehendTitleStage
  cases htitle : h.aiTitle with
  | none => simp [htitle]
  | some t => by_cases ht : t = "" <;> simp [ht, htitle]

lemma comprehendDescriptionStage_preserves (oracle : String → Option TextSuccess)
    (h : Highlight) :
    (comprehendDescriptionStage oracle h).excitementLevel = h.excitementLevel ∧
      (comprehendDescriptionStage oracle h).playType = h.playType ∧
      (comprehendDescriptionStage oracle h).aiTitle = h.aiTitle ∧
      (comprehendDescriptionStage oracle h).targetAudience = h.targetAudience ∧
      (comprehendDescriptionStage oracle h).titleSentiment = h.titleSentiment ∧
      (comprehendDescriptionStage oracle h).titleEntities = h.titleEntities ∧
      (comprehendDescriptionStage oracle h).titleKeyPhrases = h.titleKeyPhrases := by
  unfold comprehendDescriptionStage
  cases hdesc : h.description with
  | none => simp
  | some d => by_cases hd : d = "" <;> simp [hd]

lemma comprehendOne_preserves (oracle : String → Option TextSuccess) (h : Highlight) :
    (comprehendOne oracle h).excitementLevel = h.excitementLevel ∧
      (comprehendOne oracle h).playType = h.playType ∧
      (comprehendOne oracle h).aiTitle = h.aiTitle ∧
      (comprehendOne oracle h).targetAudience = h.targetAudience := by
  rcases comprehendTitleStage_preserves oracle h with ⟨ht1, ht2, ht3, ht4, _⟩
  rcases comprehendDescriptionStage_preserves oracle (comprehendTitleStage oracle h) with
    ⟨hd1, hd2, hd3, hd4, _, _, _⟩
  unfold comprehendOne
  refine ⟨?_, ?_, ?_, ?_⟩ <;> simp [hd1, hd2, hd3, hd4, ht1, ht2, ht3, ht4]

lemma mem_enhanceWithComprehend {oracle : String → Option TextSuccess} {sf : Bool}
    {hs : List Highlight} {h : Highlight} (hmem : h ∈ enhanceWithComprehend oracle sf hs) :
    ∃ h0 ∈ hs, h.excitementLevel = h0.excitementLevel ∧ h.playType = h0.playType ∧
      h.aiTitle = h0.aiTitle ∧ h.targetAudience = h0.targetAudience := by
  unfold enhanceWithComprehend at hmem
  cases sf with
  | true =>
    rw [if_pos rfl] at hmem
    rcases List.mem_map.1 hmem with ⟨h0, h0mem, rfl⟩
    exact ⟨h0, h0mem, by simp, by simp, by simp, by simp⟩
  | false =>
    rw [if_neg (by simp)] at hmem
    rcases List.mem_map.1 hmem with ⟨h0, h0mem, rfl⟩
    rcases comprehendOne_preserves oracle h0 with ⟨h1, h2, h3, h4⟩
    exact ⟨h0, h0mem, h1, h2, h3, h4⟩

lemma mem_bedrockMergeFrom {insights : Option (List AIInsight)} {h : Highlight} :
    ∀ (k : Nat) (hs : List Highlight), h ∈ bedrockMergeFrom insights k hs →
      ∃ i h0, h0 ∈ hs ∧ h = bedrockMergeOne insights i h0 := by
  intro k hs
  induction hs generalizing k with
  | nil => intro hmem; simp [bedrockMergeFrom] at hmem
  | cons h1 rest ih =>
    intro hmem
    rcases List.mem_cons.1 hmem with heq | hmem2
    · exact ⟨k, h1, by simp, heq⟩
    · rcases ih (k + 1) hmem2 with ⟨i, h0, h0mem, heq⟩
      exact ⟨i, h0, by simp [h0mem], heq⟩

lemma bedrockMergeOne_isSome (insights : Option (List AIInsight)) (i : Nat) (h : Highlight) :
    (bedrockMergeOne insights i h).excitementLevel.isSome ∧
      (bedrockMergeOne insights i h).playType.isSome ∧
      (bedrockMergeOne insights i h).aiTitle.isSome ∧
      (bedrockMergeOne insights i h).targetAudience.isSome := by
  simp [bedrockMergeOne]

/-- C1: the claim that every record leaving the merge carries all four
required fields fails on the code: when the contextual call parses to a
body without content text, the candidates pass through unchanged and can
lack all four fields, and when the call throws, the fallback sets three
of them but never `targetAudience`. -/
theorem enrichment_totality_refuted :
    (∃ h ∈ enhanceWithComprehend (fun _ => none) false
        (enhanceWithBedrock [{}] BedrockOutcome.noContent),
      h.targetAudience = none ∧ h.excitementLevel = none ∧ h.playType = none ∧
        h.aiTitle = none) ∧
      ∃ h ∈ enhanceWithComprehend (fun _ => none) false
          (enhanceWithBedrock [{}] BedrockOutcome.failure),
        h.targetAudience = none := by
  constructor
  · refine ⟨comprehendOne (fun _ => none) {}, ?_, ?_⟩
    · simp [enhanceWithBedrock, enhanceWithComprehend]
    · rcases comprehendOne_preserves (fun _ => none) ({} : Highlight) with ⟨h1, h2, h3, h4⟩
      rw [h1, h2, h3, h4]
      exact ⟨rfl, rfl, rfl, rfl⟩
  · refine ⟨comprehendOne (fun _ => none) (bedrockFallbackOne {}), ?_, ?_⟩
    · simp [enhanceWithBedrock, enhanceWithComprehend]
    · rcases comprehendOne_preserves (fun _ => none) (bedrockFallbackOne {}) with ⟨_, _, _, h4⟩
      rw [h4]
      rfl

/-- C1 (amended): when the contextual response parses with content text,
every record leaving the merge carries all four required fields; when
the contextual call throws, every candidate that entered without a
`targetAudience` leaves with `excitementLevel`, `playType` and a title
but still no `targetAudience`; and a response with no content text
passes the candidate list through unchanged. -/
theorem enrichment_fields_by_outcome :
    ∀ (oracle : String → Option TextSuccess) (sf : Bool) (hs : List Highlight),
      (∀ ins h, h ∈ enhanceWithComprehend oracle sf
          (enhanceWithBedrock hs (BedrockOutcome.content ins)) →
        h.excitementLevel.isSome ∧ h.playType.isSome ∧ h.aiTitle.isSome ∧
          h.targetAudience.isSome) ∧
      ((∀ h0 ∈ hs, h0.targetAudience = none) →
        ∀ h ∈ enhanceWithComprehend oracle sf (enhanceWithBedrock hs BedrockOutcome.failure),
          h.excitementLevel.isSome ∧ h.playType.isSome ∧ h.aiTitle.isSome ∧
            h.targetAudience = none) ∧
      (enhanceWithBedrock hs BedrockOutcome.noContent = hs) := by
  intro oracle sf hs
  refine ⟨?_, ?_, rfl⟩
  · intro ins h hmem
    rcases mem_enhanceWithComprehend hmem with ⟨h0, h0mem, h1, h2, h3, h4⟩
    rcases mem_bedrockMergeFrom 0 hs h0mem with ⟨i, h5, _, rfl⟩
    rcases bedrockMergeOne_isSome ins i h5 with ⟨g1, g2, g3, g4⟩
    rw [h1, h2, h3, h4]
    exact ⟨g1, g2, g3, g4⟩
  · intro hnone h hmem
    rcases mem_enhanceWithComprehend hmem with ⟨h0, h0mem, h1, h2, h3, h4⟩
    rcases List.mem_map.1 h0mem with ⟨h5, h5mem, rfl⟩
    rw [h1, h2, h3, h4]
    refine ⟨by simp [bedrockFallbackOne], by simp [bedrockFallbackOne],
      by simp [bedrockFallbackOne], ?_⟩
    have : (bedrockFallbackOne h5).targetAudience = h5.targetAudience := by
      simp [bedrockFallbackOne]
    rw [this]
    exact hnone h5 h5mem

/-- Witness for C1 (amended): the failure branch instantiated on a
single fresh candidate. -/
theorem enrichment_fields_by_outcome_witness :
    (∀ h0 ∈ ([{}] : List Highlight), h0.targetAudience = none) ∧
      ∀ h ∈ enhanceWithComprehend (fun _ => none) false
          (enhanceWithBedrock [{}] BedrockOutcome.failure),
        h.excitementLevel.isSome ∧ h.playType.isSome ∧ h.aiTitle.isSome ∧
          h.targetAudience = none :=
  ⟨by simp, (enrichment_fields_by_outcome (fun _ => none) false [{}]).2.1 (by simp)⟩

lemma bedrockMergeFrom_get? :
    ∀ (insights : Option (List AIInsight)) (hs : List Highlight) (k i : Nat),
      (bedrockMergeFrom insights k hs).get? i =
        (hs.get? i).map (bedrockMergeOne insights (k + i)) := by
  intro insights hs
  induction hs with
  | nil => intro k i; simp [bedrockMergeFrom]
  | cons h1 rest ih =>
    intro k i
    cases i with
    | zero => simp [bedrockMergeFrom]
    | succ j =>
      have harith : k + (j + 1) = (k + 1) + j := by omega
      simp only [bedrockMergeFrom, List.get?_cons_succ, ih (k + 1) j, harith]

/-- Concrete candidate for the positional-merge scenarios. -/
def c7h : Highlight := { confidence := 90 }

/-- C7: the claim says a trailing candidate at a missing position exits
with the catch-path fallbacks (`playType = "detected"`, title
`"Auto-detected Highlight"`, `aiEnhanced = false`). On a parsed response
whose highlight array is empty, the merged record instead carries
`playType = "general"`, title `"Highlight 1"` and `aiEnhanced = true`. -/
theorem bedrock_short_response_refutes_claim :
    ∃ h ∈ enhanceWithBedrock [c7h] (BedrockOutcome.content (some [])),
      h.playType ≠ some "detected" ∧ h.aiTitle ≠ some "Auto-detected Highlight" ∧
        h.aiEnhanced ≠ some false ∧ h.excitementLevel = some (c7h.confidence / 10) := by
  refine ⟨bedrockMergeOne (some []) 0 c7h, ?_, ?_⟩
  · simp [enhanceWithBedrock, bedrockMergeFrom]
  · simp only [bedrockMergeOne, aiAt, jsOrStr, jsOrNum]
    refine ⟨by decide, by decide, by simp, by simp⟩

/-- C7 (amended): when the parsed contextual response carries fewer
per-highlight objects than the candidate list, every trailing candidate
at a missing position exits the contextual stage with `excitementLevel =
confidence/10`, `playType = "general"`, title `"Highlight (i+1)"`,
`targetAudience = "general"` and `aiEnhanced = true`. -/
theorem bedrock_short_response_trailing_fallbacks :
    ∀ (l : List AIInsight) (hs : List Highlight) (i : Nat) (h : Highlight),
      hs.get? i = some h → l.length ≤ i →
      (enhanceWithBedrock hs (BedrockOutcome.content (some l))).get? i =
        some { h with
          excitementLevel := some (h.confidence / 10)
          playType := some "general"
          aiTitle := some ("Highlight " ++ toString (i + 1))
          targetAudience := some "general"
          aiEnhanced := some true } := by
  intro l hs i h hget hlen
  have hnone : l[i]? = none := List.getElem?_eq_none hlen
  simp only [enhanceWithBedrock]
  rw [bedrockMergeFrom_get? (some l) hs 0 i, hget]
  simp [bedrockMergeOne, aiAt, hnone, jsOrNum, jsOrStr]

/-- Witness for C7 (amended): a single candidate against an empty parsed
highlight array. -/
theorem bedrock_short_response_trailing_fallbacks_witness :
    ([c7h] : List Highlight).get? 0 = some c7h ∧
      ([] : List AIInsight).length ≤ 0 ∧
      (enhanceWithBedrock [c7h] (BedrockOutcome.content (some []))).get? 0 =
        some { c7h with
          excitementLevel := some (c7h.confidence / 10)
          playType := some "general"
          aiTitle := some ("Highlight " ++ toString (0 + 1))
          targetAudience := some "general"
          aiEnhanced := some true } :=
  ⟨rfl, by simp,
    bedrock_short_response_trailing_fallbacks [] [c7h] 0 c7h rfl (by simp)⟩

/-- Concrete candidate whose title the text-analytics call fails on. -/
def c5h : Highlight := { aiTitle := some "Epic Goal" }

/-- C5: the claim says a candidate whose title analysis fails ends with
`comprehendEnhanced = false` and its analysis fields unset. In the code
the failure is caught inside `analyzeTextWithComprehend`, so the
candidate ends with `comprehendEnhanced = true`, a null sentiment and
empty entity and key-phrase lists. -/
theorem comprehend_individual_failure_refutes_claim :
    ∃ h ∈ enhanceWithComprehend (fun _ => none) false [c5h],
      h.comprehendEnhanced = some true ∧ h.comprehendEnhanced ≠ some false ∧
        h.titleSentiment = some none ∧ h.titleEntities = some [] ∧
        h.titleKeyPhrases = some [] := by
  refine ⟨comprehendOne (fun _ => none) c5h, ?_, ?_⟩
  · simp [enhanceWithComprehend]
  · simp [comprehendOne, comprehendTitleStage, comprehendDescriptionStage, c5h,
      analyzeTextWithComprehend]

/-- C5 (amended): the text-analytics stage is an independent per-candidate
map, and when the per-title analysis fails for a candidate the caught
failure leaves that candidate with a null title sentiment, empty entity
and key-phrase lists, and `comprehendEnhanced = true` (the `false`
marker occurs only when the whole stage throws); sibling candidates are
processed independently and normally. -/
theorem comprehend_individual_failure_fields :
    ∀ (oracle : String → Option TextSuccess) (hs : List Highlight),
      enhanceWithComprehend oracle false hs = hs.map (comprehendOne oracle) ∧
      ∀ (h : Highlight) (t : String), h.aiTitle = some t → t ≠ "" → oracle t = none →
        (comprehendOne oracle h).titleSentiment = some none ∧
          (comprehendOne oracle h).titleEntities = some [] ∧
          (comprehendOne oracle h).titleKeyPhrases = some [] ∧
          (comprehendOne oracle h).comprehendEnhanced = some true := by
  intro oracle hs
  constructor
  · simp [enhanceWithComprehend]
  · intro h t htitle ht horacle
    rcases comprehendDescriptionStage_preserves oracle (comprehendTitleStage oracle h) with
      ⟨_, _, _, _, hd5, hd6, hd7⟩
    have hts : (comprehendTitleStage oracle h).titleSentiment = some none ∧
        (comprehendTitleStage oracle h).titleEntities = some [] ∧
        (comprehendTitleStage oracle h).titleKeyPhrases = some [] := by
      unfold comprehendTitleStage
      rw [htitle]
      simp [ht, analyzeTextWithComprehend, horacle]
    refine ⟨?_, ?_, ?_, ?_⟩ <;>
      simp [comprehendOne, hd5, hd6, hd7, hts.1, hts.2.1, hts.2.2]

/-- Witness for C5 (amended): the failing-title candidate instantiated. -/
theorem comprehend_individual_failure_fields_witness :
    c5h.aiTitle = some "Epic Goal" ∧
      (comprehendOne (fun _ => none) c5h).titleSentiment = some none ∧
      (comprehendOne (fun _ => none) c5h).titleEntities = some [] ∧
      (comprehendOne (fun _ => none) c5h).titleKeyPhrases = some [] ∧
      (comprehendOne (fun _ => none) c5h).comprehendEnhanced = some true := by
  refine ⟨rfl, ?_⟩
  have := (comprehend_individual_failure_fields (fun _ => none) [c5h]).2 c5h "Epic Goal" rfl
    (by simp) rfl
  exact ⟨this.1, this.2.1, this.2.2.1, this.2.2.2⟩

lemma teamPoints_eq (prefs : List Preference) (h : RankHighlight) :
    teamPoints prefs h =
      10 * ((h.teams.getD []).map (fun t => (prefLookup prefs "TEAM" t).getD 0)).sum := by
  unfold teamPoints
  cases hteams : h.teams with
  | none => simp
  | some ts =>
    simp only [Option.getD_some]
    clear hteams
    induction ts with
    | nil => simp
    | cons t rest ih =>
      simp only [List.map_cons, List.sum_cons]
      rw [ih]
      cases hft : prefLookup prefs "TEAM" t <;> simp [hft, mul_add]

lemma playerPoints_eq (prefs : List Preference) (h : RankHighlight) :
    playerPoints prefs h =
      15 * ((h.players.getD []).map (fun q => (prefLookup prefs "PLAYER" q).getD 0)).sum := by
  unfold playerPoints
  cases hplayers : h.players with
  | none => simp
  | some ps =>
    simp only [Option.getD_some]
    clear hplayers
    induction ps with
    | nil => simp
    | cons q rest ih =>
      simp only [List.map_cons, List.sum_cons]
      rw [ih]
      cases hft : prefLookup prefs "PLAYER" q <;> simp [hft, mul_add]

lemma playTypePoints_eq (prefs : List Preference) (h : RankHighlight) :
    playTypePoints prefs h =
      5 * (if h.playType.getD "" = "" then 0
        else (prefLookup prefs "PLAY_TYPE" (h.playType.getD "")).getD 0) := by
  unfold playTypePoints
  cases hpt : h.playType with
  | none => simp
  | some pt =>
    simp only [Option.getD_some]
    by_cases hempty : pt = ""
    · simp [hempty]
    · cases hft : prefLookup prefs "PLAY_TYPE" pt <;> simp [hft, hempty]

lemma sportPoints_eq (prefs : List Preference) (h : RankHighlight) :
    sportPoints prefs h =
      3 * (if h.sport.getD "" = "" then 0
        else (prefLookup prefs "SPORT" (h.sport.getD "")).getD 0) := by
  unfold sportPoints
  cases hsp : h.sport with
  | none => simp
  | some sp =>
    simp only [Option.getD_some]
    by_cases hempty : sp = ""
    · simp [hempty]
    · cases hft : prefLookup prefs "SPORT" sp <;> simp [hft, hempty]

lemma ruleBasedScore_formula (prefs : List Preference) (h : RankHighlight) :
    ruleBasedScore prefs h =
      h.confidence.getD 0 +
        10 * ((h.teams.getD []).map (fun t => (prefLookup prefs "TEAM" t).getD 0)).sum +
        15 * ((h.players.getD []).map (fun q => (prefLookup prefs "PLAYER" q).getD 0)).sum +
        5 * (if h.playType.getD "" = "" then 0
          else (prefLookup prefs "PLAY_TYPE" (h.playType.getD "")).getD 0) +
        3 * (if h.sport.getD "" = "" then 0
          else (prefLookup prefs "SPORT" (h.sport.getD "")).getD 0) := by
  unfold ruleBasedScore
  rw [teamPoints_eq, playerPoints_eq, playTypePoints_eq, sportPoints_eq]

/-- The preference set of the specification's ranking scenario. -/
def prefsW : List Preference :=
  [{ type := "SPORT", value := "soccer", weight := some 10 },
   { type := "PLAY_TYPE", value := "goal", weight := some 10 }]

/-- The soccer/goal highlight of the ranking scenario. -/
def hSoccer : RankHighlight :=
  { confidence := some 90, sport := some "soccer", playType := some "goal" }

/-- The basketball/dunk highlight of the ranking scenario. -/
def hBasket : RankHighlight :=
  { confidence := some 90, sport := some "basketball", playType := some "dunk" }

/-- C6: rule-based ranking scores every highlight as base confidence plus
10 times the matched team weights, 15 times the matched player weights,
5 times the matched play-type weight and 3 times the matched sport
weight; the output is ordered descending by this score; and on the
specification's scenario the soccer/goal highlight scores 170 and ranks
above the basketball/dunk highlight scoring 90. -/
theorem ruleBasedPersonalization_score_and_order :
    (∀ (prefs : List Preference) (hs : List RankHighlight),
      List.Perm (ruleBasedPersonalization prefs hs)
        (hs.map (fun h =>
          { h with personalizedScore := some (
              h.confidence.getD 0 +
                10 * ((h.teams.getD []).map (fun t => (prefLookup prefs "TEAM" t).getD 0)).sum +
                15 * ((h.players.getD []).map
                  (fun q => (prefLookup prefs "PLAYER" q).getD 0)).sum +
                5 * (if h.playType.getD "" = "" then 0
                  else (prefLookup prefs "PLAY_TYPE" (h.playType.getD "")).getD 0) +
                3 * (if h.sport.getD "" = "" then 0
                  else (prefLookup prefs "SPORT" (h.sport.getD "")).getD 0)) })) ∧
      List.Sorted scoreDesc (ruleBasedPersonalization prefs hs)) ∧
      ruleBasedPersonalization prefsW [hBasket, hSoccer] =
        [{ hSoccer with personalizedScore := some 170 },
         { hBasket with personalizedScore := some 90 }] := by
  constructor
  · intro prefs hs
    constructor
    · have hfun : (hs.map (fun h =>
          { h with personalizedScore := some (ruleBasedScore prefs h) })) =
          (hs.map (fun h =>
          { h with personalizedScore := some (
              h.confidence.getD 0 +
                10 * ((h.teams.getD []).map (fun t => (prefLookup prefs "TEAM" t).getD 0)).sum +
                15 * ((h.players.getD []).map
                  (fun q => (prefLookup prefs "PLAYER" q).getD 0)).sum +
                5 * (if h.playType.getD "" = "" then 0
                  else (prefLookup prefs "PLAY_TYPE" (h.playType.getD "")).getD 0) +
                3 * (if h.sport.getD "" = "" then 0
                  else (prefLookup prefs "SPORT" (h.sport.getD "")).getD 0)) })) := by
        apply List.map_congr_left
        intro h _
        rw [ruleBasedScore_formula]
      rw [← hfun]
      exact List.perm_insertionSort scoreDesc _
    · exact List.sorted_insertionSort scoreDesc _
  · have hsoc : ruleBasedScore prefsW hSoccer = 170 := by
      simp [ruleBasedScore, teamPoints, playerPoints, playTypePoints, sportPoints,
        prefLookup, prefsW, hSoccer, storedWeight, List.filter_cons]
      norm_num
    have hbas : ruleBasedScore prefsW hBasket = 90 := by
      simp [ruleBasedScore, teamPoints, playerPoints, playTypePoints, sportPoints,
        prefLookup, prefsW, hBasket, storedWeight, List.filter_cons]
    have hcmp : ¬ scoreDesc { hBasket with personalizedScore := some (90 : ℚ) }
        { hSoccer with personalizedScore := some (170 : ℚ) } := by
      unfold scoreDesc
      norm_num
    unfold ruleBasedPersonalization
    simp only [List.map_cons, List.map_nil, hsoc, hbas, List.insertionSort,
      List.orderedInsert]
    rw [if_neg hcmp]

end GameSpotlights
